import Mathlib

/-!
# OpticalSend protocol engine: a shallow embedding in Lean 4

This file embeds the protocol engine of the OpticalSend repository
(`src/services/opticalCrypto.ts`, `opticalCompression.ts`,
`opticalBlockManager.ts`, `opticalAssembly.ts`, `opticalHandshake.ts`,
`opticalQR.ts`, `opticalSenderFlow.ts`, `opticalReceiverFlow.ts`,
`opticalDB.ts`) and proves properties of the embedded definitions.

Byte buffers (`Uint8Array` / `ArrayBuffer`) are modelled as `List Nat`
with every element below 256.  Strings are Lean `String`s; every string
the engine manipulates (hex digests, base64, the protocol tag) is ASCII.

Hashing (`crypto.subtle.digest('SHA-256', ...)`), HMAC
(`crypto.subtle.sign('HMAC', ...)` with SHA-256), hex and base64 codecs
are implemented concretely below, so they evaluate on concrete inputs.
The remaining platform/library primitives — AES-GCM (`crypto.subtle`),
ECDH P-256 (`crypto.subtle`), and gzip (`pako`) — are parameters of the
development, collected in the `Prim` structure together with exactly the
guarantees those primitives provide.
-/

set_option maxRecDepth 100000

namespace OpticalSend

/-- 2^32, the modulus of JavaScript 32-bit unsigned arithmetic inside SHA-256. -/
def w32 : Nat := 4294967296

/-- Addition modulo 2^32. -/
def add32 (a b : Nat) : Nat := (a + b) % w32

/-- Right rotation of a 32-bit word by `n` bits. -/
def rotr32 (n x : Nat) : Nat := (x / 2 ^ n + x % 2 ^ n * 2 ^ (32 - n)) % w32

/-- Logical right shift of a 32-bit word by `n` bits. -/
def shr32 (n x : Nat) : Nat := x / 2 ^ n

/-- Bitwise complement within 32 bits (inputs are below 2^32). -/
def not32 (x : Nat) : Nat := 4294967295 - x

/-- SHA-256 Ch function. -/
def shaCh (e f g : Nat) : Nat := Nat.xor (Nat.land e f) (Nat.land (not32 e) g)

/-- SHA-256 Maj function. -/
def shaMaj (a b c : Nat) : Nat :=
  Nat.xor (Nat.xor (Nat.land a b) (Nat.land a c)) (Nat.land b c)

/-- SHA-256 big sigma 0. -/
def bsig0 (x : Nat) : Nat := Nat.xor (Nat.xor (rotr32 2 x) (rotr32 13 x)) (rotr32 22 x)

/-- SHA-256 big sigma 1. -/
def bsig1 (x : Nat) : Nat := Nat.xor (Nat.xor (rotr32 6 x) (rotr32 11 x)) (rotr32 25 x)

/-- SHA-256 small sigma 0. -/
def ssig0 (x : Nat) : Nat := Nat.xor (Nat.xor (rotr32 7 x) (rotr32 18 x)) (shr32 3 x)

/-- SHA-256 small sigma 1. -/
def ssig1 (x : Nat) : Nat := Nat.xor (Nat.xor (rotr32 17 x) (rotr32 19 x)) (shr32 10 x)

/-- The 64 SHA-256 round constants (FIPS 180-4, written in decimal). -/
def shaK : List Nat :=
  [1116352408, 1899447441, 3049323471, 3921009573, 961987163,
   1508970993, 2453635748, 2870763221, 3624381080, 310598401,
   607225278, 1426881987, 1925078388, 2162078206, 2614888103,
   3248222580, 3835390401, 4022224774, 264347078, 604807628,
   770255983, 1249150122, 1555081692, 1996064986, 2554220882,
   2821834349, 2952996808, 3210313671, 3336571891, 3584528711,
   113926993, 338241895, 666307205, 773529912, 1294757372,
   1396182291, 1695183700, 1986661051, 2177026350, 2456956037,
   2730485921, 2820302411, 3259730800, 3345764771, 3516065817,
   3600352804, 4094571909, 275423344, 430227734, 506948616,
   659060556, 883997877, 958139571, 1322822218, 1537002063,
   1747873779, 1955562222, 2024104815, 2227730452, 2361852424,
   2428436474, 2756734187, 3204031479, 3329325298]

/-- The SHA-256 initial hash state (FIPS 180-4, written in decimal). -/
def shaH0 : List Nat :=
  [1779033703, 3144134277, 1013904242, 2773480762, 1359893119,
   2600822924, 528734635, 1541459225]

/-- Big-endian byte decomposition of `n` into `len` bytes. -/
def beBytes (len n : Nat) : List Nat :=
  (List.range len).map (fun i => n / 256 ^ (len - 1 - i) % 256)

/-- SHA-256 padding: append 0x80, zeros to 56 mod 64, then the bit length. -/
def sha256Pad (msg : List Nat) : List Nat :=
  let r := msg.length % 64
  let k := if r < 56 then 55 - r else 119 - r
  msg ++ [0x80] ++ List.replicate k 0 ++ beBytes 8 (msg.length * 8)

/-- Group a byte list into big-endian 32-bit words (length a multiple of 4). -/
def toWords : List Nat → List Nat
  | a :: b :: c :: d :: rest => (((a * 256 + b) * 256 + c) * 256 + d) :: toWords rest
  | _ => []

/-- Split a byte list into 64-byte chunks (structural recursion on a fuel
bound so that the kernel can evaluate it; `fuel = l.length` suffices). -/
def chunks64Go : Nat → List Nat → List (List Nat)
  | 0, _ => []
  | n + 1, l => if l = [] then [] else l.take 64 :: chunks64Go n (l.drop 64)

/-- Split a byte list into 64-byte chunks. -/
def chunks64 (l : List Nat) : List (List Nat) := chunks64Go l.length l

/-- One extension step of the SHA-256 message schedule. -/
def schedStep (w : List Nat) : List Nat :=
  let i := w.length
  w ++ [add32 (add32 (ssig1 (w.getD (i - 2) 0)) (w.getD (i - 7) 0))
              (add32 (ssig0 (w.getD (i - 15) 0)) (w.getD (i - 16) 0))]

/-- Extend 16 message words to the full 64-entry schedule. -/
def schedule (w16 : List Nat) : List Nat :=
  (List.range 48).foldl (fun w _ => schedStep w) w16

/-- One SHA-256 compression round on an 8-word state. -/
def shaRound (st : List Nat) (k w : Nat) : List Nat :=
  match st with
  | [a, b, c, d, e, f, g, h] =>
    let t1 := add32 h (add32 (bsig1 e) (add32 (shaCh e f g) (add32 k w)))
    let t2 := add32 (bsig0 a) (shaMaj a b c)
    [add32 t1 t2, a, b, c, add32 d t1, e, f, g]
  | other => other

/-- Process one 64-byte chunk, updating the 8-word hash state. -/
def processChunk (h : List Nat) (chunk : List Nat) : List Nat :=
  let w := schedule (toWords chunk)
  let st := (List.zip shaK w).foldl (fun st kw => shaRound st kw.1 kw.2) h
  List.zipWith add32 h st

/-- SHA-256 of a byte list, as 32 bytes. -/
def sha256 (msg : List Nat) : List Nat :=
  let hs := (chunks64 (sha256Pad msg)).foldl processChunk shaH0
  (hs.map (beBytes 4)).flatten

/-- Two lowercase hex characters of a byte, as in
`b.toString(16).padStart(2, ...)` for `b < 256` (`arrayBufferToHex`). -/
def byteToHex (b : Nat) : List Char := [Nat.digitChar (b / 16), Nat.digitChar (b % 16)]

/-- `arrayBufferToHex` from `opticalCrypto.ts`: lowercase hex of a byte list. -/
def arrayBufferToHex (l : List Nat) : String := String.mk ((l.map byteToHex).flatten)

/-- Value of one hex character as produced by `Nat.digitChar` (`parseInt` base 16). -/
def hexVal (c : Char) : Nat :=
  if c = '0' then 0 else if c = '1' then 1 else if c = '2' then 2
  else if c = '3' then 3 else if c = '4' then 4 else if c = '5' then 5
  else if c = '6' then 6 else if c = '7' then 7 else if c = '8' then 8
  else if c = '9' then 9 else if c = 'a' then 10 else if c = 'b' then 11
  else if c = 'c' then 12 else if c = 'd' then 13 else if c = 'e' then 14
  else if c = 'f' then 15 else 0

/-- Parse pairs of hex characters to bytes (`parseInt(hex.substr(i,2),16)`). -/
def hexPairsToBytes : List Char → List Nat
  | c1 :: c2 :: rest => (hexVal c1 * 16 + hexVal c2) :: hexPairsToBytes rest
  | _ => []

/-- `hexToArrayBuffer` from `opticalCrypto.ts`. -/
def hexToArrayBuffer (s : String) : List Nat := hexPairsToBytes s.data

/-- `computeSHA256` from `opticalCrypto.ts`: SHA-256 digest as lowercase hex. -/
def computeSHA256 (data : List Nat) : String := arrayBufferToHex (sha256 data)

/-- HMAC-SHA256 as implemented by WebCrypto `sign('HMAC', …)` (RFC 2104):
keys longer than the 64-byte block are hashed, then zero-padded. -/
def hmacSha256 (key msg : List Nat) : List Nat :=
  let k0 := if 64 < key.length then sha256 key else key
  let k1 := k0 ++ List.replicate (64 - k0.length) 0
  let ipadKey := k1.map (fun b => Nat.xor b 0x36)
  let opadKey := k1.map (fun b => Nat.xor b 0x5c)
  sha256 (opadKey ++ sha256 (ipadKey ++ msg))

/-- `TextEncoder().encode` restricted to the ASCII strings this protocol
uses (the protocol tag, roles, digests). -/
def strBytes (s : String) : List Nat := s.data.map Char.toNat

/-- FIPS 180-4 test vector: SHA-256 of the ASCII string abc. -/
theorem sha256_abc_vector :
    computeSHA256 (strBytes "abc") =
      "ba7816bf8f01cfea414140de5dae2223b00361a396177a9cb410ff61f20015ad" := by
  decide

/-- FIPS 180-4 test vector: SHA-256 of the empty message. -/
theorem sha256_empty_vector :
    computeSHA256 [] =
      "e3b0c44298fc1c149afbf4c8996fb92427ae41e4649b934ca495991b7852b855" := by
  decide

/-- RFC 4231 test case 2: HMAC-SHA256 with key `Jefe` and data
`what do ya want for nothing?`. -/
theorem hmac_rfc4231_vector :
    arrayBufferToHex
        (hmacSha256 (strBytes "Jefe") (strBytes "what do ya want for nothing?")) =
      "5bdcc146bf60754e6a042426089575c75a003f089d2739839dec58b964ec3843" := by
  decide

/-! ## Base64 (`btoa` / `atob`, as used by `arrayBufferToBase64`,
`base64ToArrayBuffer` and `uint8ArrayToBase64` in the source) -/

/-- The base64 alphabet. -/
def b64Alphabet : List Char :=
  "ABCDEFGHIJKLMNOPQRSTUVWXYZabcdefghijklmnopqrstuvwxyz0123456789+/".data

/-- Character for a 6-bit value. -/
def b64Char (v : Nat) : Char := b64Alphabet.getD v 'A'

/-- 6-bit value of a base64 character. -/
def b64Val (c : Char) : Nat := b64Alphabet.indexOf c

/-- `btoa` on a byte list: three bytes become four characters, with `=`
padding for a final group of one or two bytes. -/
def btoaChars : List Nat → List Char
  | [] => []
  | [a] => [b64Char (a / 4), b64Char (a % 4 * 16), '=', '=']
  | [a, b] => [b64Char (a / 4), b64Char (a % 4 * 16 + b / 16), b64Char (b % 16 * 4), '=']
  | a :: b :: c :: rest =>
    b64Char (a / 4) :: b64Char (a % 4 * 16 + b / 16) ::
      b64Char (b % 16 * 4 + c / 64) :: b64Char (c % 64) :: btoaChars rest

/-- `arrayBufferToBase64` / `uint8ArrayToBase64` from the source. -/
def btoaBytes (l : List Nat) : String := String.mk (btoaChars l)

/-- `atob` on the character list, producing bytes. -/
def atobChars : List Char → List Nat
  | c0 :: c1 :: c2 :: c3 :: rest =>
    if c2 = '=' then [b64Val c0 * 4 + b64Val c1 / 16]
    else if c3 = '=' then
      [b64Val c0 * 4 + b64Val c1 / 16, b64Val c1 % 16 * 16 + b64Val c2 / 4]
    else
      (b64Val c0 * 4 + b64Val c1 / 16) ::
        ((b64Val c1 % 16 * 16 + b64Val c2 / 4) ::
          ((b64Val c2 % 4 * 64 + b64Val c3) :: atobChars rest))
  | _ => []

/-- `base64ToArrayBuffer` from `opticalCrypto.ts`. -/
def atobBytes (s : String) : List Nat := atobChars s.data

theorem b64Val_b64Char : ∀ v, v < 64 → b64Val (b64Char v) = v := by decide

theorem b64Char_ne_eq : ∀ v, v < 64 → b64Char v ≠ '=' := by decide

/-- Base64 round-trip on byte lists. -/
theorem atob_btoa (l : List Nat) (h : ∀ b ∈ l, b < 256) :
    atobBytes (btoaBytes l) = l := by
  unfold atobBytes btoaBytes
  rw [show (String.mk (btoaChars l)).data = btoaChars l from rfl]
  induction l using btoaChars.induct with
  | case1 => decide
  | case2 a =>
    have ha : a < 256 := h a (by simp)
    simp only [btoaChars, atobChars, if_pos rfl]
    rw [b64Val_b64Char (a / 4) (by omega), b64Val_b64Char (a % 4 * 16) (by omega)]
    have hrec : a / 4 * 4 + a % 4 * 16 / 16 = a := by omega
    rw [hrec]
    simp only [if_true]
  | case3 a b =>
    have ha : a < 256 := h a (by simp)
    have hb : b < 256 := h b (by simp)
    simp only [btoaChars, atobChars]
    rw [if_neg (b64Char_ne_eq (b % 16 * 4) (by omega))]
    simp only [if_true]
    rw [b64Val_b64Char (a / 4) (by omega),
        b64Val_b64Char (a % 4 * 16 + b / 16) (by omega),
        b64Val_b64Char (b % 16 * 4) (by omega)]
    simp only [List.cons.injEq, and_true]
    omega
  | case4 a b c rest ih =>
    have ha : a < 256 := h a (by simp)
    have hb : b < 256 := h b (by simp)
    have hc : c < 256 := h c (by simp)
    simp only [btoaChars, atobChars]
    rw [if_neg (b64Char_ne_eq (b % 16 * 4 + c / 64) (by omega)),
        if_neg (b64Char_ne_eq (c % 64) (by omega))]
    rw [b64Val_b64Char (a / 4) (by omega),
        b64Val_b64Char (a % 4 * 16 + b / 16) (by omega),
        b64Val_b64Char (b % 16 * 4 + c / 64) (by omega),
        b64Val_b64Char (c % 64) (by omega)]
    have ih' := ih (fun x hx => h x (by simp [hx]))
    simp only [List.cons.injEq]
    refine ⟨by omega, by omega, by omega, ih'⟩

/-! ## Platform and library primitives

AES-256-GCM and ECDH P-256 live behind `crypto.subtle`, and gzip behind
the `pako` library; none of them is code of this repository.  They are
modelled as parameters, packaged with exactly the guarantees the engine
relies on: AEAD decryption inverts encryption under the same key and
nonce, the GCM output is ciphertext plus a 16-byte tag, gzip
decompression inverts compression, ECDH shared secrets agree
(`dh_comm`), and public-key import inverts export. -/

structure Prim where
  /-- AES-256-GCM `encrypt`: key, 12-byte IV, plaintext ↦ ciphertext‖tag. -/
  aesEnc : List Nat → List Nat → List Nat → List Nat
  /-- AES-256-GCM `decrypt`: key, IV, ciphertext‖tag ↦ plaintext, or a
  thrown `OperationError` on authentication failure (`none`). -/
  aesDec : List Nat → List Nat → List Nat → Option (List Nat)
  /-- Decryption with the right key and IV recovers the plaintext. -/
  aes_roundtrip : ∀ k iv d, aesDec k iv (aesEnc k iv d) = some d
  /-- GCM output is the ciphertext plus the 16-byte authentication tag. -/
  aes_len : ∀ k iv d, (aesEnc k iv d).length = d.length + 16
  /-- `pako.gzip` (may throw: `none`). -/
  gzipC : List Nat → Option (List Nat)
  /-- `pako.ungzip` (throws on corrupt input: `none`). -/
  ungzipC : List Nat → Option (List Nat)
  /-- Decompression inverts compression. -/
  gzip_rt : ∀ x g, gzipC x = some g → ungzipC g = some x
  /-- ECDH `deriveBits`: private scalar and peer public point ↦ 256
  shared bits. -/
  dh : Nat → Nat → List Nat
  /-- Public point of a private scalar. -/
  pubOf : Nat → Nat
  /-- The two peers derive the same shared bits. -/
  dh_comm : ∀ a b, dh a (pubOf b) = dh b (pubOf a)
  /-- `exportPublicKeyBase64`: raw public point to base64 text. -/
  exportPub : Nat → String
  /-- `importPublicKeyBase64`. -/
  importPub : String → Nat
  /-- Import inverts export. -/
  import_export : ∀ p, importPub (exportPub p) = p

/-- Result of `encryptAESGCM` (`EncryptedBlock` in `opticalCrypto.ts`). -/
structure EncryptedBlockM where
  ciphertext : List Nat
  iv : String
deriving Repr, DecidableEq

/-- `encryptAESGCM` from `opticalCrypto.ts`.  The implementation draws a
random 12-byte IV from `crypto.getRandomValues`; here the IV is passed
explicitly. -/
def encryptAESGCM (P : Prim) (data key iv : List Nat) : EncryptedBlockM :=
  { ciphertext := P.aesEnc key iv data, iv := btoaBytes iv }

/-- `decryptAESGCM` from `opticalCrypto.ts`. -/
def decryptAESGCM (P : Prim) (ciphertext key : List Nat) (ivBase64 : String) :
    Option (List Nat) :=
  P.aesDec key (atobBytes ivBase64) ciphertext

/-- `deriveSymmetricKey` from `opticalCrypto.ts`, returning the 32 bytes
of AES key material it imports.  Its extract step is
`sign('HMAC', importKey(sharedSecret), salt)` — HMAC keyed by the shared
secret over the salt — and its expand step is `sign('HMAC',
importKey(prk), encode(info))` truncated to 32 bytes. -/
def deriveSymmetricKey (sharedSecret salt : List Nat) (info : String) : List Nat :=
  let prk := hmacSha256 sharedSecret salt
  let t1 := hmacSha256 prk (strBytes info)
  t1.take 32

/-- The default `info` argument of `deriveSymmetricKey`. -/
def protocolInfoTag : String := "opticalsend-v1"

/-- HKDF-SHA256 per RFC 5869 with L = 32 (a single expand block), the
reference the specification's key-derivation sentence describes: extract
is HMAC keyed by the salt over the input key material, and the 32-byte
output is the prefix of `T(1) = HMAC(PRK, info ‖ 0x01)`. -/
def hkdfSha256Rfc5869Len32 (salt ikm info : List Nat) : List Nat :=
  let prk := hmacSha256 salt ikm
  let t1 := hmacSha256 prk (info ++ [0x01])
  t1.take 32

/-! ## Codec layer (`opticalCompression.ts`) -/

/-- `CompressionType` from `opticalCompression.ts`. -/
inductive CompressionType
  | gzip
  | brotli
  | none
deriving DecidableEq, Repr

/-- `CompressionResult` from `opticalCompression.ts`. -/
structure CompressionResult where
  compressed : List Nat
  type : CompressionType
  originalSize : Nat
deriving DecidableEq, Repr

/-- `compress` from `opticalCompression.ts`: gzip dispatches to pako
(whose errors propagate, hence `Option`); brotli falls back to the raw
bytes with a console warning; none is the identity. -/
def compress (P : Prim) (data : List Nat) : CompressionType → Option (List Nat)
  | .gzip => P.gzipC data
  | .brotli => some data
  | .none => some data

/-- `decompress` from `opticalCompression.ts`. -/
def decompress (P : Prim) (data : List Nat) : CompressionType → Option (List Nat)
  | .gzip => P.ungzipC data
  | .brotli => some data
  | .none => some data

/-- `selectBestCompression` from `opticalCompression.ts`: try gzip; keep
it only when the output is strictly smaller than 95% of the input,
otherwise (and on a gzip error, which the function catches) return the
raw bytes with type none.  The source comparison
`gzipped.length < data.length * 0.95` is on IEEE doubles; for every
byte length in JavaScript range it agrees with the exact rational
comparison `20 * gzipped.length < 19 * data.length` used here, since
`data.length * 0.95` is always within 2^-40 of the rational value while
the integer `gzipped.length` is at least 1/20 away from it whenever the
two sides could disagree. -/
def selectBestCompression (P : Prim) (data : List Nat) : CompressionResult :=
  match P.gzipC data with
  | some gzipped =>
    if 20 * gzipped.length < 19 * data.length then
      { compressed := gzipped, type := .gzip, originalSize := data.length }
    else
      { compressed := data, type := .none, originalSize := data.length }
  | Option.none => { compressed := data, type := .none, originalSize := data.length }

/-- `getCompressionRatio` from `opticalCompression.ts` (rational form of
`1 - compressedSize / originalSize`). -/
def getCompressionRatio (originalSize compressedSize : Nat) : ℚ :=
  if originalSize = 0 then 0 else 1 - (compressedSize : ℚ) / (originalSize : ℚ)

/-! ## Block model (`opticalBlockManager.ts`, `opticalQR.ts`, `opticalDB.ts`) -/

/-- `BlockState` from `opticalBlockManager.ts`. -/
inductive BlockState
  | pending
  | queued
  | sending
  | completed
  | failed
  | skipped
deriving DecidableEq, Repr

/-- `BlockHeader` from `opticalQR.ts`. -/
structure BlockHeader where
  protocol : String
  fileId : String
  blockId : String
  seq : Nat
  totalSeq : Nat
  payloadSize : Nat
  rawSize : Nat
  compression : CompressionType
  encryption : String
  iv : String
  kdf : String
  checksum : String
  timestamp : String
deriving DecidableEq, Repr

/-- `BlockRecord` from `opticalBlockManager.ts`. -/
structure BlockRecord where
  id : String
  fileId : String
  seq : Nat
  totalSeq : Nat
  header : BlockHeader
  payload : List Nat
  state : BlockState
  attempts : Nat
  sentOverQR : Bool
  sentOverWiFi : Bool
  verified : Bool
  lastError : Option String
  retransmitCount : Nat
deriving DecidableEq, Repr

/-- `StoredBlock` from `opticalDB.ts`.  The source serializes the header
with `JSON.stringify` and the assembly step parses it back; for this
record type that round-trip is faithful, so the journal row stores the
structured header. -/
structure StoredBlock where
  fileId : String
  seq : Nat
  header : BlockHeader
  payload : List Nat
  state : BlockState
  decompressed : Option (List Nat)
deriving DecidableEq, Repr

/-- The IndexedDB primary key of the `blocks` table is `[fileId, seq]`. -/
def blockKeyMatches (fid : String) (seq : Nat) (r : StoredBlock) : Bool :=
  r.fileId == fid && r.seq == seq

/-- `BlockStore.storeBlock`: IndexedDB `put`, an upsert on the primary
key.  The journal is the list of rows. -/
def storeBlock (journal : List StoredBlock) (rec : StoredBlock) : List StoredBlock :=
  if journal.any (blockKeyMatches rec.fileId rec.seq) then
    journal.map (fun r => if blockKeyMatches rec.fileId rec.seq r then rec else r)
  else journal ++ [rec]

/-- `BlockStore.getBlocksForFile`: all rows with the given file id. -/
def getBlocksForFile (journal : List StoredBlock) (fid : String) : List StoredBlock :=
  journal.filter (fun r => r.fileId == fid)

/-- `BlockStore.getBlock`: the row under `(fileId, seq)`, if present. -/
def getBlock (journal : List StoredBlock) (fid : String) (seq : Nat) :
    Option StoredBlock :=
  journal.find? (blockKeyMatches fid seq)

/-! ## Receiving one block (`processReceivedBlock`, `opticalBlockManager.ts`) -/

/-- `processReceivedBlock`: decrypt, validate the checksum, decompress,
store in the journal, and mark complete.  Returns the boolean result
together with the mutated block record and the updated journal.  The
`try`/`catch` of the source turns a decryption failure (AEAD
authentication) or a decompression failure into the `failed` branch;
the explicit checksum branch does the same.  Note the journal row is
built with `state: block.state` before `block.state` is reassigned. -/
def processReceivedBlock (P : Prim) (block : BlockRecord) (symKey : List Nat)
    (journal : List StoredBlock) : Bool × BlockRecord × List StoredBlock :=
  match decryptAESGCM P block.payload symKey block.header.iv with
  | Option.none =>
    (false,
     { block with state := .failed, lastError := some "OperationError",
                  retransmitCount := block.retransmitCount + 1 },
     journal)
  | some decrypted =>
    let checksum := computeSHA256 decrypted
    if checksum ≠ block.header.checksum then
      (false,
       { block with state := .failed, lastError := some "Checksum mismatch",
                    retransmitCount := block.retransmitCount + 1 },
       journal)
    else
      match decompress P decrypted block.header.compression with
      | Option.none =>
        (false,
         { block with state := .failed, lastError := some "incorrect header check",
                      retransmitCount := block.retransmitCount + 1 },
         journal)
      | some decompressed =>
        let journal' := storeBlock journal
          { fileId := block.fileId, seq := block.seq, header := block.header,
            payload := block.payload, state := block.state,
            decompressed := some decompressed }
        (true, { block with state := .completed, verified := true }, journal')

/-! ## Block creation (`opticalBlockManager.ts`) -/

/-- `Math.ceil(n / b)` on naturals. -/
def totalBlocksOf (n b : Nat) : Nat := (n + b - 1) / b

/-- `fileData.slice(start, Math.min(start + b, n))` for `start = seq*b`:
`take b` already truncates at the end of the list. -/
def sliceChunk (fileData : List Nat) (b seq : Nat) : List Nat :=
  (fileData.drop (seq * b)).take b

/-- The body of the `createEncryptedBlocksFromFile` loop for one `seq`.
`ivs seq` is the fresh random IV `encryptAESGCM` draws for this block,
`ids seq` the `uuidv4()` block id, `now` the ISO timestamp. -/
def mkEncBlock (P : Prim) (ivs : Nat → List Nat) (ids : Nat → String) (now : String)
    (fileId : String) (fileData symKey : List Nat) (b totalBlocks seq : Nat) :
    BlockRecord :=
  let blockData := sliceChunk fileData b seq
  let compressionResult := selectBestCompression P blockData
  let comp := compressionResult.compressed
  let checksum := computeSHA256 comp
  let encrypted := encryptAESGCM P comp symKey (ivs seq)
  let header : BlockHeader :=
    { protocol := "opticalsend-v1", fileId := fileId, blockId := ids seq,
      seq := seq, totalSeq := totalBlocks,
      payloadSize := encrypted.ciphertext.length,
      rawSize := blockData.length,
      compression := compressionResult.type,
      encryption := "AES-GCM", iv := encrypted.iv, kdf := "ECDH-P256",
      checksum := checksum, timestamp := now }
  { id := header.blockId, fileId := fileId, seq := seq, totalSeq := totalBlocks,
    header := header, payload := encrypted.ciphertext, state := .pending,
    attempts := 0, sentOverQR := false, sentOverWiFi := false,
    verified := false, lastError := Option.none, retransmitCount := 0 }

/-- `createEncryptedBlocksFromFile` from `opticalBlockManager.ts`. -/
def createEncryptedBlocksFromFile (P : Prim) (ivs : Nat → List Nat)
    (ids : Nat → String) (now : String) (fileId : String)
    (fileData symKey : List Nat) (blockSizeBytes : Nat) : List BlockRecord :=
  (List.range (totalBlocksOf fileData.length blockSizeBytes)).map
    (mkEncBlock P ivs ids now fileId fileData symKey blockSizeBytes
      (totalBlocksOf fileData.length blockSizeBytes))

/-- The body of the `createBlocksFromFile` loop for one `seq`: no
encryption yet, `payloadSize` is the compressed length, the IV field is
left empty, the compressed bytes themselves are the payload. -/
def mkPlainBlock (P : Prim) (ids : Nat → String) (now : String)
    (fileId : String) (fileData : List Nat) (b totalBlocks seq : Nat) :
    BlockRecord :=
  let blockData := sliceChunk fileData b seq
  let compressionResult := selectBestCompression P blockData
  let checksum := computeSHA256 compressionResult.compressed
  let header : BlockHeader :=
    { protocol := "opticalsend-v1", fileId := fileId, blockId := ids seq,
      seq := seq, totalSeq := totalBlocks,
      payloadSize := compressionResult.compressed.length,
      rawSize := blockData.length,
      compression := compressionResult.type,
      encryption := "AES-GCM", iv := "", kdf := "ECDH-P256",
      checksum := checksum, timestamp := now }
  { id := header.blockId, fileId := fileId, seq := seq, totalSeq := totalBlocks,
    header := header, payload := compressionResult.compressed, state := .pending,
    attempts := 0, sentOverQR := false, sentOverWiFi := false,
    verified := false, lastError := Option.none, retransmitCount := 0 }

/-- `createBlocksFromFile` from `opticalBlockManager.ts`. -/
def createBlocksFromFile (P : Prim) (ids : Nat → String) (now : String)
    (fileId : String) (fileData : List Nat) (blockSizeBytes : Nat) :
    List BlockRecord :=
  (List.range (totalBlocksOf fileData.length blockSizeBytes)).map
    (mkPlainBlock P ids now fileId fileData blockSizeBytes
      (totalBlocksOf fileData.length blockSizeBytes))

/-! ## Assembly (`opticalAssembly.ts`) -/

/-- `FileManifest` from `opticalAssembly.ts`. -/
structure FileManifest where
  fileId : String
  filename : String
  totalSize : Nat
  totalBlocks : Nat
  sha256 : String
deriving DecidableEq, Repr

/-- `assembleAndValidateFile` from `opticalAssembly.ts`: fetch the rows
for the file, sort by sequence (`Array.prototype.sort` is stable;
modelled by a stable insertion sort on the parsed `seq`), reject when a
sequence below `manifest.totalBlocks` is missing, concatenate the
decompressed payloads of the sorted rows (rows without one are
skipped), and compare the SHA-256 of the result with the manifest. -/
def assembleAndValidateFile (fileId : String) (journal : List StoredBlock)
    (manifest : FileManifest) : Except String (List Nat) :=
  let blocks := getBlocksForFile journal fileId
  if blocks.isEmpty then .error "No blocks found for file"
  else
    let sorted := List.insertionSort (fun a b => a.header.seq ≤ b.header.seq) blocks
    let missingSeq := (List.range manifest.totalBlocks).filter
      (fun s => ! sorted.any (fun blk => blk.header.seq == s))
    if 0 < missingSeq.length then .error "Missing blocks"
    else
      let payloads := sorted.filterMap (fun blk => blk.decompressed)
      let finalData := payloads.flatten
      if computeSHA256 finalData ≠ manifest.sha256 then .error "SHA-256 mismatch"
      else .ok finalData

/-- `fileDataSha256` from `opticalAssembly.ts`. -/
def fileDataSha256 (data : List Nat) : String := computeSHA256 data

/-! ## Handshake (`opticalQR.ts`, `opticalHandshake.ts`) -/

/-- `HandshakeFrame` from `opticalQR.ts`.  `requestedOptions` is the
pair `(blockSize, preferCompression)`. -/
structure HandshakeFrame where
  type : String
  role : String
  fileSessionId : String
  pubKey : String
  nonce : String
  offeredCompression : List String
  supportedBlockSizes : List Nat
  timestamp : String
  ack : Option Bool
  requestedOptions : Option (Nat × String)
deriving DecidableEq, Repr

/-- `createSenderHandshakeFrame` from `opticalQR.ts`.  The source draws
`fileSessionId` from `uuidv4()` and the 16-byte nonce from
`crypto.getRandomValues`; both are passed in here. -/
def createSenderHandshakeFrame (pubKeyBase64 : String)
    (supportedBlockSizes : List Nat) (sessionId nonceB64 now : String) :
    HandshakeFrame :=
  { type := "handshake", role := "sender", fileSessionId := sessionId,
    pubKey := pubKeyBase64, nonce := nonceB64,
    offeredCompression := ["gzip", "none"],
    supportedBlockSizes := supportedBlockSizes, timestamp := now,
    ack := Option.none, requestedOptions := Option.none }

/-- `createReceiverHandshakeFrame` from `opticalQR.ts` (its own fresh
random nonce is passed as `nonceB64`; `respondToSenderFrame` overwrites
it afterwards). -/
def createReceiverHandshakeFrame (fileSessionId pubKeyBase64 : String)
    (blockSize : Nat) (preferCompression : String) (nonceB64 now : String) :
    HandshakeFrame :=
  { type := "handshake", role := "receiver", fileSessionId := fileSessionId,
    pubKey := pubKeyBase64, nonce := nonceB64,
    offeredCompression := ["gzip", "none"],
    supportedBlockSizes := [blockSize], timestamp := now,
    ack := some true, requestedOptions := some (blockSize, preferCompression) }

/-- `deriveSaltFromNonces` from `opticalHandshake.ts`:
SHA-256(senderNonce ‖ receiverNonce) of the base64-decoded nonces,
converted from its hex string back into bytes. -/
def deriveSaltFromNonces (senderNonceB64 receiverNonceB64 : String) : List Nat :=
  let a := atobBytes senderNonceB64
  let b := atobBytes receiverNonceB64
  let concat := a ++ b
  let hash := computeSHA256 concat
  hexToArrayBuffer hash

/-- `ReceiverHandshakeResult` from `opticalHandshake.ts` (the keypair is
represented by the private scalar). -/
structure ReceiverHandshakeResultM where
  responseFrame : HandshakeFrame
  symKey : List Nat
  receiverPriv : Nat
  receiverPubKeyBase64 : String
  receiverNonceBase64 : String
deriving DecidableEq, Repr

/-- `respondToSenderFrame` from `opticalHandshake.ts`.  The receiver
keypair and 16-byte nonce are random in the source and passed in here,
as is the fresh nonce `createReceiverHandshakeFrame` draws internally
(immediately overwritten with `receiverNonceB64`, mirroring the
`responseFrame.nonce = receiverNonceBase64` assignment).  The source
reads `supportedBlockSizes?.[0] || 1024` and
`offeredCompression?.[0] || 'gzip'`, JavaScript falsy defaults. -/
def respondToSenderFrame (P : Prim) (receiverPriv : Nat)
    (receiverNonceB64 freshRespNonce now : String) (senderFrame : HandshakeFrame) :
    Except String ReceiverHandshakeResultM :=
  if senderFrame.type ≠ "handshake" ∨ senderFrame.role ≠ "sender" then
    .error "Invalid sender handshake frame"
  else
    let senderPubBase64 := senderFrame.pubKey
    let senderNonceBase64 := senderFrame.nonce
    let sessionId := senderFrame.fileSessionId
    let receiverPubKeyBase64 := P.exportPub (P.pubOf receiverPriv)
    let senderPubKey := P.importPub senderPubBase64
    let sharedSecret := P.dh receiverPriv senderPubKey
    let salt := deriveSaltFromNonces senderNonceBase64 receiverNonceB64
    let symKey := deriveSymmetricKey sharedSecret salt protocolInfoTag
    let bs0 := senderFrame.supportedBlockSizes.headD 0
    let blockSize := if bs0 = 0 then 1024 else bs0
    let c0 := senderFrame.offeredCompression.headD ""
    let prefComp := if c0 = "" then "gzip" else c0
    let responseFrame0 := createReceiverHandshakeFrame sessionId
      receiverPubKeyBase64 blockSize prefComp freshRespNonce now
    let responseFrame := { responseFrame0 with nonce := receiverNonceB64 }
    .ok { responseFrame := responseFrame, symKey := symKey,
          receiverPriv := receiverPriv,
          receiverPubKeyBase64 := receiverPubKeyBase64,
          receiverNonceBase64 := receiverNonceB64 }

/-- `finalizeSenderHandshake` from `opticalHandshake.ts`. -/
def finalizeSenderHandshake (P : Prim) (senderPriv : Nat)
    (senderNonceB64 : String) (responseFrame : HandshakeFrame) :
    Except String (List Nat) :=
  if responseFrame.type ≠ "handshake" ∨ responseFrame.role ≠ "receiver" then
    .error "Invalid receiver handshake frame"
  else
    let receiverPubKey := P.importPub responseFrame.pubKey
    let sharedSecret := P.dh senderPriv receiverPubKey
    let salt := deriveSaltFromNonces senderNonceB64 responseFrame.nonce
    .ok (deriveSymmetricKey sharedSecret salt protocolInfoTag)

/-! ## Receiver pipeline (`opticalReceiverFlow.ts`) -/

/-- A `nack` control message (`DataChannelWrapper.sendNACK`). -/
structure NackMessage where
  fileId : String
  blockId : String
  seq : Nat
  reason : String
deriving DecidableEq, Repr

/-- The parts of `ReceiverPipeline` the block path touches: the session
key, the journal, and the tracker counters. -/
structure ReceiverPipelineM where
  symKey : List Nat
  journal : List StoredBlock
  blocksCompleted : Nat
  blocksFailed : Nat
  retransmits : Nat
deriving DecidableEq, Repr

/-- Result of `processReceivedBlockInPipeline`. -/
structure PipelineStepResult where
  success : Bool
  block : BlockRecord
  pipeline : ReceiverPipelineM
  nacks : List NackMessage
deriving DecidableEq, Repr

/-- `processReceivedBlockInPipeline` from `opticalReceiverFlow.ts`: runs
`processReceivedBlock`; on success bumps the completed counter; on
failure bumps the failed and retransmit counters and, when a data
channel is present, sends one NACK whose reason is the block's
`lastError` (defaulting to the literal fallback string). -/
def processReceivedBlockInPipeline (P : Prim) (block : BlockRecord)
    (pl : ReceiverPipelineM) (dataChannelPresent : Bool) : PipelineStepResult :=
  let r := processReceivedBlock P block pl.symKey pl.journal
  if r.1 then
    { success := true, block := r.2.1,
      pipeline := { pl with journal := r.2.2,
                            blocksCompleted := pl.blocksCompleted + 1 },
      nacks := [] }
  else
    { success := false, block := r.2.1,
      pipeline := { pl with journal := r.2.2,
                            blocksFailed := pl.blocksFailed + 1,
                            retransmits := pl.retransmits + 1 },
      nacks :=
        if dataChannelPresent then
          [{ fileId := block.fileId, blockId := block.id, seq := block.seq,
             reason := r.2.1.lastError.getD "Failed to process block" }]
        else [] }

/-! ## Sender pipeline (`opticalSenderFlow.ts`) -/

/-- Outbound transmissions the sender can emit for a block. -/
inductive SendEvent
  | announcement (seq : Nat) (blockId : String) (size : Nat) (checksum : String)
  | binaryPayload (seq : Nat)
  | qrFrames (seq : Nat)
deriving DecidableEq, Repr

/-- `sendBlockViaDataChannel`: announcement, then the payload as one
binary message; marks `sentOverWiFi`. -/
def sendBlockViaDataChannel (block : BlockRecord) : BlockRecord × List SendEvent :=
  ({ block with sentOverWiFi := true },
   [SendEvent.announcement block.seq block.id block.payload.length
      block.header.checksum,
    SendEvent.binaryPayload block.seq])

/-- `sendBlockViaQR`: renders every QR chunk of the block (collapsed to
one event here). -/
def sendBlockViaQR (block : BlockRecord) : List SendEvent :=
  [SendEvent.qrFrames block.seq]

/-- The parts of `SenderPipeline` that `handleNACK` touches. -/
structure SenderPipelineM where
  blocks : List BlockRecord
  trackerRetransmits : Nat
  dataChannelPresent : Bool
deriving DecidableEq, Repr

/-- `handleNACK` from `opticalSenderFlow.ts`: look the block up by id;
if found, record the retransmit, bump the block's `retransmitCount` and
`attempts`, and re-send via the data channel if present, else via QR if
a canvas was passed.  Note there is no retransmit cap here and no
assignment of the `skipped` state anywhere in the source. -/
def handleNACK (blockId : String) (pl : SenderPipelineM) (canvasPresent : Bool) :
    SenderPipelineM × List SendEvent :=
  match pl.blocks.find? (fun b => b.id == blockId) with
  | Option.none => (pl, [])
  | some block =>
    let counted := { block with retransmitCount := block.retransmitCount + 1,
                                attempts := block.attempts + 1 }
    if pl.dataChannelPresent then
      let sent := sendBlockViaDataChannel counted
      ({ pl with blocks := pl.blocks.map (fun b => if b.id == blockId then sent.1 else b),
                 trackerRetransmits := pl.trackerRetransmits + 1 },
       sent.2)
    else if canvasPresent then
      ({ pl with blocks := pl.blocks.map (fun b => if b.id == blockId then counted else b),
                 trackerRetransmits := pl.trackerRetransmits + 1 },
       sendBlockViaQR counted)
    else
      ({ pl with blocks := pl.blocks.map (fun b => if b.id == blockId then counted else b),
                 trackerRetransmits := pl.trackerRetransmits + 1 },
       [])

/-! ## A concrete primitive bundle

`tPrim` instantiates the platform parameters with simple executable
functions satisfying the same contracts, so that closed statements
about the engine can be evaluated. -/

/-- Toy AEAD encryption: plaintext followed by a 16-byte tag of zeros. -/
def tAesEnc (_key _iv d : List Nat) : List Nat := d ++ List.replicate 16 0

/-- Toy AEAD decryption: accept iff the 16-byte zero tag is intact. -/
def tAesDec (_key _iv c : List Nat) : Option (List Nat) :=
  if 16 ≤ c.length ∧ c.drop (c.length - 16) = List.replicate 16 0 then
    some (c.take (c.length - 16))
  else Option.none

/-- A concrete `Prim`. -/
def tPrim : Prim where
  aesEnc := tAesEnc
  aesDec := tAesDec
  aes_roundtrip := by
    intro k iv d
    have hlen : (d ++ List.replicate 16 0).length - 16 = d.length := by simp
    simp [tAesEnc, tAesDec, hlen, List.drop_left, List.take_left]
  aes_len := by intro k iv d; simp [tAesEnc]
  gzipC := fun x => some (0 :: x)
  ungzipC := fun l => match l with
    | 0 :: t => some t
    | _ => Option.none
  gzip_rt := by
    intro x g h
    injection h with h
    subst h
    rfl
  dh := fun a b => [a * b % 256]
  pubOf := id
  dh_comm := by intro a b; simp [Nat.mul_comm]
  exportPub := fun p => String.mk (List.replicate p 'x')
  importPub := fun s => s.data.length
  import_export := by intro p; simp

/-! ## Claim theorems -/

/-- C10: for a zero-byte input file both block-creation functions return
an empty block list — `Math.ceil(0 / blockSize)` is 0 blocks, so a
zero-byte transfer has `totalSeq = 0` and never emits any block. -/
theorem zero_byte_file_yields_no_blocks (P : Prim) (ivs : Nat → List Nat)
    (ids : Nat → String) (now fileId : String) (symKey : List Nat) (b : Nat) :
    createEncryptedBlocksFromFile P ivs ids now fileId [] symKey b = [] ∧
    createBlocksFromFile P ids now fileId [] b = [] := by
  have h : totalBlocksOf 0 b = 0 := by
    unfold totalBlocksOf
    rcases b with _ | n
    · rfl
    · exact Nat.div_eq_of_lt (by omega)
  constructor
  · unfold createEncryptedBlocksFromFile
    rw [show ([] : List Nat).length = 0 from rfl, h]
    rfl
  · unfold createBlocksFromFile
    rw [show ([] : List Nat).length = 0 from rfl, h]
    rfl

/-- C8: `selectBestCompression x` returns type gzip exactly when gzip
succeeded and its output is strictly smaller than 95% of the input
(the exact rational form of the source's float comparison); in every
other case it returns type none with the raw input bytes unchanged. -/
theorem selectBestCompression_gzip_iff (P : Prim) (x : List Nat) :
    ((selectBestCompression P x).type = CompressionType.gzip ↔
      ∃ g, P.gzipC x = some g ∧ 20 * g.length < 19 * x.length) ∧
    ((selectBestCompression P x).type ≠ CompressionType.gzip →
      (selectBestCompression P x).type = CompressionType.none ∧
      (selectBestCompression P x).compressed = x) := by
  unfold selectBestCompression
  cases hg : P.gzipC x with
  | none => simp [hg]
  | some g =>
    by_cases hlt : 20 * g.length < 19 * x.length
    · simp [hlt]
    · simp [hlt]

/-- Witness for the selection heuristic: under `tPrim` (whose gzip adds
a byte) the input `[1]` is kept raw with type none. -/
theorem selectBestCompression_gzip_iff_witness :
    (selectBestCompression tPrim [1]).type = CompressionType.none ∧
    (selectBestCompression tPrim [1]).compressed = [1] :=
  (selectBestCompression_gzip_iff tPrim [1]).2 (by decide)

/-- C7: for modes gzip and none, decompression inverts compression
bit-exactly whenever compression produced an output. -/
theorem compress_decompress_roundtrip (P : Prim) (m : CompressionType)
    (x c : List Nat) (hm : m = CompressionType.gzip ∨ m = CompressionType.none)
    (hc : compress P x m = some c) :
    decompress P c m = some x := by
  rcases hm with rfl | rfl
  · exact P.gzip_rt x c hc
  · simp only [compress] at hc
    injection hc with hc
    subst hc
    rfl

/-- Witness for the compression round-trip at mode gzip on `[1, 2]`. -/
theorem compress_decompress_roundtrip_witness :
    (CompressionType.gzip = CompressionType.gzip ∨
      CompressionType.gzip = CompressionType.none) ∧
    compress tPrim [1, 2] CompressionType.gzip = some [0, 1, 2] ∧
    decompress tPrim [0, 1, 2] CompressionType.gzip = some [1, 2] :=
  ⟨Or.inl rfl, by decide,
   compress_decompress_roundtrip tPrim CompressionType.gzip [1, 2] [0, 1, 2]
     (Or.inl rfl) (by decide)⟩

/-- C3: `deriveSymmetricKey` is not RFC 5869 HKDF-SHA256.  Its extract
step keys the HMAC with the shared secret and hashes the salt (RFC 5869
keys with the salt and hashes the secret), and its expand step omits
the 0x01 counter octet.  At shared secret `[0]`, salt `[1]`,
info `"i"`, the two outputs differ. -/
theorem deriveSymmetricKey_differs_from_rfc5869 :
    deriveSymmetricKey [0] [1] "i" ≠ hkdfSha256Rfc5869Len32 [1] [0] (strBytes "i") := by
  decide

/-- A block header for concrete sender-flow scenarios. -/
def c6Header : BlockHeader :=
  { protocol := "opticalsend-v1", fileId := "f", blockId := "b0", seq := 0,
    totalSeq := 1, payloadSize := 1, rawSize := 1,
    compression := CompressionType.none, encryption := "AES-GCM", iv := "",
    kdf := "ECDH-P256", checksum := "c", timestamp := "t" }

/-- A block record for concrete sender-flow scenarios. -/
def c6Block : BlockRecord :=
  { id := "b0", fileId := "f", seq := 0, totalSeq := 1, header := c6Header,
    payload := [1], state := BlockState.pending, attempts := 0,
    sentOverQR := false, sentOverWiFi := false, verified := false,
    lastError := Option.none, retransmitCount := 0 }

/-- C6: `handleNACK` enforces no retransmit cap and nothing in the
source ever assigns the `skipped` state.  After five NACK handlings for
the same block its state is still `pending` (not `skipped`), and a
sixth NACK still triggers a retransmission. -/
theorem handleNACK_never_reaches_skipped :
    (let pl0 : SenderPipelineM :=
      { blocks := [c6Block], trackerRetransmits := 0, dataChannelPresent := true }
    let step := fun pl : SenderPipelineM => (handleNACK "b0" pl false).1
    let pl5 := step (step (step (step (step pl0))))
    let sixth := handleNACK "b0" pl5 false
    pl5.blocks.map (fun b => b.retransmitCount) = [5] ∧
    pl5.blocks.map (fun b => b.state) = [BlockState.pending] ∧
    (sixth.1).blocks.map (fun b => b.retransmitCount) = [6] ∧
    (sixth.1).blocks.map (fun b => b.state) = [BlockState.pending] ∧
    sixth.2 ≠ []) := by
  decide

/-- A stored block matches its own key. -/
theorem blockKeyMatches_self (rec : StoredBlock) :
    blockKeyMatches rec.fileId rec.seq rec = true := by
  simp [blockKeyMatches]

/-- After `storeBlock`, the row under the record's key is that record. -/
theorem getBlock_storeBlock (j : List StoredBlock) (rec : StoredBlock) :
    getBlock (storeBlock j rec) rec.fileId rec.seq = some rec := by
  unfold storeBlock getBlock
  by_cases hex : j.any (blockKeyMatches rec.fileId rec.seq) = true
  · rw [if_pos hex]
    induction j with
    | nil => simp at hex
    | cons r rs ih =>
      rw [List.map_cons]
      by_cases hr : blockKeyMatches rec.fileId rec.seq r = true
      · rw [if_pos hr]
        exact List.find?_cons_of_pos _ (blockKeyMatches_self rec)
      · rw [if_neg hr]
        rw [List.find?_cons_of_neg _ (by simpa using hr)]
        apply ih
        simp only [List.any_cons, Bool.or_eq_true] at hex
        rcases hex with hex | hex
        · exact absurd hex hr
        · exact hex
  · rw [if_neg hex]
    induction j with
    | nil => simp [List.find?_cons, blockKeyMatches_self]
    | cons r rs ih =>
      have hr : ¬ blockKeyMatches rec.fileId rec.seq r = true := by
        intro hc
        exact hex (by simp [List.any_cons, hc])
      rw [List.cons_append, List.find?_cons_of_neg _ (by simpa using hr)]
      apply ih
      intro hc
      exact hex (by simp only [List.any_cons, Bool.or_eq_true]; exact Or.inr hc)

/-- Anatomy of a failing `processReceivedBlock`: on any of the three
failure exits (decryption, checksum, decompression) the journal is
untouched and the block is marked failed with an error and a bumped
retransmit counter. -/
theorem processReceivedBlock_failure_core (P : Prim) (blk : BlockRecord)
    (k : List Nat) (j : List StoredBlock)
    (h : (processReceivedBlock P blk k j).1 = false) :
    (processReceivedBlock P blk k j).2.2 = j ∧
    (processReceivedBlock P blk k j).2.1.state = BlockState.failed ∧
    (processReceivedBlock P blk k j).2.1.lastError.isSome = true ∧
    (processReceivedBlock P blk k j).2.1.retransmitCount = blk.retransmitCount + 1 := by
  unfold processReceivedBlock at h ⊢
  cases hd : decryptAESGCM P blk.payload k blk.header.iv with
  | none => simp [hd]
  | some comp =>
    by_cases hcs : computeSHA256 comp = blk.header.checksum
    · cases hdc : decompress P comp blk.header.compression with
      | none => simp [hd, hcs, hdc]
      | some dec => simp [hd, hcs, hdc] at h
    · simp [hd, hcs]

/-- C4: whenever `processReceivedBlock` fails — AEAD authentication
failure, checksum mismatch, or decompression error — it returns false,
leaves the journal unchanged, marks the block failed with `lastError`
set and `retransmitCount` incremented, and
`processReceivedBlockInPipeline` then emits exactly one NACK when a
data channel is available. -/
theorem processReceivedBlock_failure_semantics (P : Prim) (blk : BlockRecord)
    (pl : ReceiverPipelineM)
    (h : (processReceivedBlock P blk pl.symKey pl.journal).1 = false) :
    (processReceivedBlock P blk pl.symKey pl.journal).2.2 = pl.journal ∧
    (processReceivedBlock P blk pl.symKey pl.journal).2.1.state = BlockState.failed ∧
    (processReceivedBlock P blk pl.symKey pl.journal).2.1.lastError.isSome = true ∧
    (processReceivedBlock P blk pl.symKey pl.journal).2.1.retransmitCount
      = blk.retransmitCount + 1 ∧
    (processReceivedBlockInPipeline P blk pl true).nacks =
      [{ fileId := blk.fileId, blockId := blk.id, seq := blk.seq,
         reason := (processReceivedBlock P blk pl.symKey pl.journal).2.1.lastError.getD
           "Failed to process block" }] := by
  have hc := processReceivedBlock_failure_core P blk pl.symKey pl.journal h
  refine ⟨hc.1, hc.2.1, hc.2.2.1, hc.2.2.2, ?_⟩
  unfold processReceivedBlockInPipeline
  simp [h]

/-- A block whose one-byte payload cannot carry a 16-byte tag, so
decryption fails. -/
def c4FailBlock : BlockRecord := c6Block

/-- Witness for the failure semantics: decryption of `c4FailBlock`
fails under `tPrim`, and the journal is left unchanged. -/
theorem processReceivedBlock_failure_semantics_witness :
    (processReceivedBlock tPrim c4FailBlock [9] []).1 = false ∧
    (processReceivedBlock tPrim c4FailBlock [9] []).2.2 = ([] : List StoredBlock) :=
  ⟨by decide,
   (processReceivedBlock_failure_semantics tPrim c4FailBlock
     { symKey := [9], journal := [], blocksCompleted := 0, blocksFailed := 0,
       retransmits := 0 } (by decide)).1⟩

/-- Anatomy of a successful `processReceivedBlock`: the three checks
passed and the result is exactly the completed block plus the journal
row written before the state was reassigned. -/
theorem processReceivedBlock_success_core (P : Prim) (blk : BlockRecord)
    (k : List Nat) (j : List StoredBlock)
    (h : (processReceivedBlock P blk k j).1 = true) :
    ∃ comp dec,
      decryptAESGCM P blk.payload k blk.header.iv = some comp ∧
      computeSHA256 comp = blk.header.checksum ∧
      decompress P comp blk.header.compression = some dec ∧
      processReceivedBlock P blk k j =
        (true, { blk with state := BlockState.completed, verified := true },
         storeBlock j { fileId := blk.fileId, seq := blk.seq, header := blk.header,
                        payload := blk.payload, state := blk.state,
                        decompressed := some dec }) := by
  have h' := h
  unfold processReceivedBlock at h'
  cases hd : decryptAESGCM P blk.payload k blk.header.iv with
  | none => rw [hd] at h'; simp at h'
  | some comp =>
    rw [hd] at h'
    by_cases hcs : computeSHA256 comp = blk.header.checksum
    · cases hdc : decompress P comp blk.header.compression with
      | none => simp [hcs, hdc] at h'
      | some dec =>
        refine ⟨comp, dec, rfl, hcs, hdc, ?_⟩
        simp only [processReceivedBlock, hd]
        rw [if_neg (show ¬ computeSHA256 comp ≠ blk.header.checksum by simp [hcs])]
        simp only [hdc]
    · simp [hcs] at h'

/-- C5 (amended): after a successful `processReceivedBlock` the
in-memory block is completed and verified, and the journal row under
`(fileId, seq)` holds the decrypted-and-decompressed payload — but its
`state` field is the block's state as received (the row is written with
`state: block.state` before the `completed` assignment), not
`completed`. -/
theorem processReceivedBlock_success_semantics (P : Prim) (blk : BlockRecord)
    (k : List Nat) (j : List StoredBlock)
    (h : (processReceivedBlock P blk k j).1 = true) :
    (processReceivedBlock P blk k j).2.1.state = BlockState.completed ∧
    (processReceivedBlock P blk k j).2.1.verified = true ∧
    ∃ comp dec,
      decryptAESGCM P blk.payload k blk.header.iv = some comp ∧
      decompress P comp blk.header.compression = some dec ∧
      getBlock (processReceivedBlock P blk k j).2.2 blk.fileId blk.seq =
        some { fileId := blk.fileId, seq := blk.seq, header := blk.header,
               payload := blk.payload, state := blk.state,
               decompressed := some dec } := by
  obtain ⟨comp, dec, hd, hcs, hdc, heq⟩ := processReceivedBlock_success_core P blk k j h
  rw [heq]
  exact ⟨rfl, rfl, comp, dec, hd, hdc, getBlock_storeBlock j _⟩

/-- A block as produced by the encrypting sender for the one-byte file
`[1]` under `tPrim`, with a fixed IV and id. -/
def c5Block : BlockRecord :=
  mkEncBlock tPrim (fun _ => [7, 7, 7, 7, 7, 7, 7, 7, 7, 7, 7, 7]) (fun _ => "id")
    "t" "f" [1] [9] 1024 1 0

/-- Witness for the success semantics: `c5Block` processes successfully
and ends completed. -/
theorem processReceivedBlock_success_semantics_witness :
    (processReceivedBlock tPrim c5Block [9] []).2.1.state = BlockState.completed :=
  (processReceivedBlock_success_semantics tPrim c5Block [9] [] (by decide)).1

/-- C5 counterexample: the same successful processing stores a journal
row whose `state` field is `pending`, not `completed` — the row is
written before `block.state` is reassigned. -/
theorem journal_state_not_completed_on_success :
    (processReceivedBlock tPrim c5Block [9] []).1 = true ∧
    ((processReceivedBlock tPrim c5Block [9] []).2.2).map (fun r => r.state) =
      [BlockState.pending] := by
  decide

/-- C2: for an honest two-frame handshake the two peers derive byte-equal
session keys: the receiver's `respondToSenderFrame` on the sender's
frame succeeds, and the sender's `finalizeSenderHandshake` on the
response frame returns exactly the receiver's `symKey` — both sides
compute the same ECDH shared bits, the same
`SHA-256(senderNonce ‖ receiverNonce)` salt, and the same derivation. -/
theorem handshake_key_agreement (P : Prim) (senderPriv receiverPriv : Nat)
    (senderNonceB64 receiverNonceB64 sessionId freshRespNonce now1 now2 : String)
    (supportedBlockSizes : List Nat) :
    ∃ res : ReceiverHandshakeResultM,
      respondToSenderFrame P receiverPriv receiverNonceB64 freshRespNonce now2
        (createSenderHandshakeFrame (P.exportPub (P.pubOf senderPriv))
          supportedBlockSizes sessionId senderNonceB64 now1) = .ok res ∧
      finalizeSenderHandshake P senderPriv senderNonceB64 res.responseFrame =
        .ok res.symKey := by
  unfold respondToSenderFrame
  rw [if_neg (by simp [createSenderHandshakeFrame])]
  refine ⟨_, rfl, ?_⟩
  unfold finalizeSenderHandshake
  rw [if_neg (by simp [createReceiverHandshakeFrame])]
  simp only [createSenderHandshakeFrame, createReceiverHandshakeFrame]
  rw [P.import_export, P.import_export, P.dh_comm]

/-- C9 (amended): every block emitted by either creation function has
`payloadSize` equal to the byte length of the payload it carries.  For
`createEncryptedBlocksFromFile` that payload is the AES-GCM output, i.e.
ciphertext plus 16-byte tag, of the compressed chunk.  For
`createBlocksFromFile` the blocks are pre-encryption: the payload is the
compressed chunk itself (no ciphertext, no tag) and the IV is left
empty. -/
theorem payloadSize_matches_payload (P : Prim) (ivs : Nat → List Nat)
    (ids : Nat → String) (now fileId : String) (fileData symKey : List Nat)
    (b : Nat) :
    (∀ blk ∈ createEncryptedBlocksFromFile P ivs ids now fileId fileData symKey b,
      blk.header.payloadSize = blk.payload.length ∧
      ∃ d, blk.payload = P.aesEnc symKey (ivs blk.seq) d ∧
        blk.header.payloadSize = d.length + 16) ∧
    (∀ blk ∈ createBlocksFromFile P ids now fileId fileData b,
      blk.header.payloadSize = blk.payload.length ∧ blk.header.iv = "") := by
  constructor
  · intro blk hblk
    unfold createEncryptedBlocksFromFile at hblk
    rw [List.mem_map] at hblk
    obtain ⟨seq, hseq, rfl⟩ := hblk
    refine ⟨rfl, (selectBestCompression P (sliceChunk fileData b seq)).compressed,
      rfl, ?_⟩
    exact P.aes_len symKey (ivs seq) _
  · intro blk hblk
    unfold createBlocksFromFile at hblk
    rw [List.mem_map] at hblk
    obtain ⟨seq, hseq, rfl⟩ := hblk
    exact ⟨rfl, rfl⟩

/-- Witness: the single block for the file `[1]` under `tPrim` has
`payloadSize` equal to its payload length. -/
theorem payloadSize_matches_payload_witness :
    c5Block.header.payloadSize = c5Block.payload.length :=
  ((payloadSize_matches_payload tPrim
      (fun _ => [7, 7, 7, 7, 7, 7, 7, 7, 7, 7, 7, 7]) (fun _ => "id") "t" "f"
      [1] [9] 1024).1 c5Block (by decide)).1

/-- C9 counterexample: `createBlocksFromFile` emits a block whose
`payloadSize` is 3 — the compressed, unencrypted chunk length — while
every AES-GCM ciphertext-plus-tag is at least 16 bytes long, so the
field does not measure ciphertext plus tag for this function. -/
theorem createBlocksFromFile_payloadSize_not_ciphertext :
    ∃ blk ∈ createBlocksFromFile tPrim (fun _ => "id") "t" "f" [1, 2, 3] 1024,
      blk.header.payloadSize = 3 ∧
      ∀ key iv d, (tPrim.aesEnc key iv d).length ≠ blk.header.payloadSize := by
  refine ⟨mkPlainBlock tPrim (fun _ => "id") "t" "f" [1, 2, 3] 1024 1 0, ?_, ?_, ?_⟩
  · unfold createBlocksFromFile
    rw [show totalBlocksOf ([1, 2, 3] : List Nat).length 1024 = 1 from rfl]
    simp
  · decide
  · intro key iv d
    rw [show (mkPlainBlock tPrim (fun _ => "id") "t" "f" [1, 2, 3] 1024 1 0).header.payloadSize
          = 3 from by decide]
    have hlen := tPrim.aes_len key iv d
    omega

/-! ## Round-trip development (C1) -/

/-- `Math.ceil(0 / b) = 0`. -/
theorem totalBlocksOf_zero (b : Nat) : totalBlocksOf 0 b = 0 := by
  unfold totalBlocksOf
  rcases b with _ | m
  · rfl
  · exact Nat.div_eq_of_lt (by omega)

/-- Peeling one block off the chunk count. -/
theorem totalBlocksOf_pos_step (n b : Nat) (hb : 0 < b) (hn : 0 < n) :
    totalBlocksOf n b = totalBlocksOf (n - b) b + 1 := by
  unfold totalBlocksOf
  rcases Nat.le_total n b with h | h
  · have h1 : n + b - 1 = (n - 1) + b := by omega
    have h2 : n - b = 0 := by omega
    rw [h1, Nat.add_div_right _ hb, Nat.div_eq_of_lt (by omega), h2,
        Nat.div_eq_of_lt (by omega)]
  · have h1 : n + b - 1 = (n - b + b - 1) + b := by omega
    rw [h1, Nat.add_div_right _ hb]

/-- The first chunk is the first `b` bytes. -/
theorem sliceChunk_zero (F : List Nat) (b : Nat) : sliceChunk F b 0 = F.take b := by
  unfold sliceChunk
  rw [Nat.zero_mul, List.drop_zero]

/-- Later chunks are chunks of the rest of the file. -/
theorem sliceChunk_succ (F : List Nat) (b i : Nat) :
    sliceChunk F b (i + 1) = sliceChunk (F.drop b) b i := by
  unfold sliceChunk
  rw [List.drop_drop, show b + i * b = (i + 1) * b from by ring]

/-- Concatenating all chunks recovers the file. -/
theorem chunks_flatten (b : Nat) (hb : 0 < b) :
    ∀ n (F : List Nat), F.length = n →
      ((List.range (totalBlocksOf F.length b)).map (fun i => sliceChunk F b i)).flatten
        = F := by
  intro n
  induction n using Nat.strong_induction_on with
  | _ n ih =>
    intro F hlen
    rcases eq_or_ne F [] with rfl | hF
    · simp [totalBlocksOf_zero]
    · have hpos : 0 < F.length := List.length_pos.mpr hF
      rw [totalBlocksOf_pos_step F.length b hb hpos]
      rw [List.range_succ_eq_map, List.map_cons, List.map_map, List.flatten_cons,
          sliceChunk_zero]
      have hmap : (List.range (totalBlocksOf (F.length - b) b)).map
            ((fun i => sliceChunk F b i) ∘ Nat.succ)
          = (List.range (totalBlocksOf (F.length - b) b)).map
            (fun i => sliceChunk (F.drop b) b i) := by
        apply List.map_congr_left
        intro i _
        exact sliceChunk_succ F b i
      rw [hmap]
      have hdrop_len : (F.drop b).length = F.length - b := List.length_drop b F
      have hIH := ih (F.length - b) (by omega) (F.drop b) hdrop_len
      rw [hdrop_len] at hIH
      rw [hIH]
      exact List.take_append_drop b F

/-- Decompressing the winner of `selectBestCompression` under its own
mode yields the original input. -/
theorem selectBest_decompress (P : Prim) (x : List Nat) :
    decompress P (selectBestCompression P x).compressed
      (selectBestCompression P x).type = some x := by
  unfold selectBestCompression
  cases hg : P.gzipC x with
  | none => rfl
  | some g =>
    by_cases hlt : 20 * g.length < 19 * x.length
    · simp only [if_pos hlt]
      exact P.gzip_rt x g hg
    · simp only [if_neg hlt]
      rfl

/-- The journal row a successful `processReceivedBlock` writes for the
block `mkEncBlock … seq` (state as received, decompressed chunk). -/
def mkStored (P : Prim) (ivs : Nat → List Nat) (ids : Nat → String)
    (now fileId : String) (F k : List Nat) (bs total seq : Nat) : StoredBlock :=
  { fileId := fileId, seq := seq,
    header := (mkEncBlock P ivs ids now fileId F k bs total seq).header,
    payload := (mkEncBlock P ivs ids now fileId F k bs total seq).payload,
    state := BlockState.pending,
    decompressed := some (sliceChunk F bs seq) }

/-- Processing a freshly created encrypted block with the right key
succeeds and writes exactly `mkStored`. -/
theorem processReceivedBlock_mkEncBlock (P : Prim) (ivs : Nat → List Nat)
    (ids : Nat → String) (now fileId : String) (F k : List Nat)
    (bs total seq : Nat) (hiv : ∀ x ∈ ivs seq, x < 256) (j : List StoredBlock) :
    processReceivedBlock P (mkEncBlock P ivs ids now fileId F k bs total seq) k j =
      (true,
       { mkEncBlock P ivs ids now fileId F k bs total seq with
         state := BlockState.completed, verified := true },
       storeBlock j (mkStored P ivs ids now fileId F k bs total seq)) := by
  have hdec : decryptAESGCM P (mkEncBlock P ivs ids now fileId F k bs total seq).payload
      k (mkEncBlock P ivs ids now fileId F k bs total seq).header.iv
      = some (selectBestCompression P (sliceChunk F bs seq)).compressed := by
    show P.aesDec k (atobBytes (btoaBytes (ivs seq)))
        (P.aesEnc k (ivs seq) (selectBestCompression P (sliceChunk F bs seq)).compressed)
      = _
    rw [atob_btoa (ivs seq) hiv]
    exact P.aes_roundtrip k (ivs seq) _
  have hcomp : decompress P (selectBestCompression P (sliceChunk F bs seq)).compressed
      (mkEncBlock P ivs ids now fileId F k bs total seq).header.compression
      = some (sliceChunk F bs seq) := selectBest_decompress P (sliceChunk F bs seq)
  simp only [processReceivedBlock, hdec]
  rw [if_neg (show ¬ computeSHA256 (selectBestCompression P (sliceChunk F bs seq)).compressed
        ≠ (mkEncBlock P ivs ids now fileId F k bs total seq).header.checksum from
        fun hne => hne rfl)]
  simp only [hcomp]
  rfl

/-- The receiver's loop over a stream of incoming blocks: process each
block in arrival order against the journal, recording whether every
block was accepted. -/
def processAllBlocks (P : Prim) (k : List Nat) :
    List BlockRecord → List StoredBlock → List StoredBlock × Bool
  | [], j => (j, true)
  | blk :: rest, j =>
    let r := processReceivedBlock P blk k j
    let rec' := processAllBlocks P k rest r.2.2
    (rec'.1, r.1 && rec'.2)

/-- `storeBlock` appends when no row has the record's key. -/
theorem storeBlock_fresh (j : List StoredBlock) (rec : StoredBlock)
    (h : ∀ r ∈ j, blockKeyMatches rec.fileId rec.seq r = false) :
    storeBlock j rec = j ++ [rec] := by
  unfold storeBlock
  rw [if_neg]
  intro hc
  rw [List.any_eq_true] at hc
  obtain ⟨r, hr, hp⟩ := hc
  rw [h r hr] at hp
  exact Bool.false_ne_true hp

/-- Processing the blocks for sequences `[s, s+n)` in order appends
their journal rows in order, and every block is accepted. -/
theorem processAll_mkEnc (P : Prim) (ivs : Nat → List Nat) (ids : Nat → String)
    (now fileId : String) (F k : List Nat) (bs total : Nat)
    (hiv : ∀ i, ∀ x ∈ ivs i, x < 256) :
    ∀ (n s : Nat) (j : List StoredBlock),
      (∀ rec ∈ j, rec.fileId = fileId → rec.seq < s) →
      processAllBlocks P k
        ((List.range' s n).map (mkEncBlock P ivs ids now fileId F k bs total)) j
        = (j ++ (List.range' s n).map (mkStored P ivs ids now fileId F k bs total),
           true) := by
  intro n
  induction n with
  | zero => intro s j hj; simp [processAllBlocks]
  | succ m ih =>
    intro s j hj
    rw [List.range'_succ, List.map_cons, List.map_cons]
    show processAllBlocks P k (_ :: _) j = _
    unfold processAllBlocks
    rw [processReceivedBlock_mkEncBlock P ivs ids now fileId F k bs total s (hiv s) j]
    have hfresh : ∀ r ∈ j,
        blockKeyMatches (mkStored P ivs ids now fileId F k bs total s).fileId
          (mkStored P ivs ids now fileId F k bs total s).seq r = false := by
      intro r hr
      show blockKeyMatches fileId s r = false
      unfold blockKeyMatches
      by_cases hf : r.fileId = fileId
      · have hlt := hj r hr hf
        have : (r.seq == s) = false := by
          rw [beq_eq_false_iff_ne]
          omega
        rw [this, Bool.and_false]
      · have : (r.fileId == fileId) = false := by
          rw [beq_eq_false_iff_ne]
          exact hf
        rw [this, Bool.false_and]
    rw [storeBlock_fresh j _ hfresh]
    have hnext : ∀ rec ∈ j ++ [mkStored P ivs ids now fileId F k bs total s],
        rec.fileId = fileId → rec.seq < s + 1 := by
      intro rec hrec hfid
      rcases List.mem_append.mp hrec with hrec | hrec
      · exact Nat.lt_succ_of_lt (hj rec hrec hfid)
      · rcases List.mem_singleton.mp hrec with rfl
        show s < s + 1
        omega
    change ((processAllBlocks P k
        (List.map (mkEncBlock P ivs ids now fileId F k bs total)
          (List.range' (s + 1) m))
        (j ++ [mkStored P ivs ids now fileId F k bs total s])).1,
      true && (processAllBlocks P k
        (List.map (mkEncBlock P ivs ids now fileId F k bs total)
          (List.range' (s + 1) m))
        (j ++ [mkStored P ivs ids now fileId F k bs total s])).2) = _
    rw [ih (s + 1) (j ++ [mkStored P ivs ids now fileId F k bs total s]) hnext]
    rw [List.append_assoc]
    rfl

/-- A pairwise-ordered list is a fixed point of insertion sort. -/
theorem insertionSort_eq_self_of_pairwise {α : Type} (r : α → α → Prop)
    [DecidableRel r] : ∀ (l : List α), l.Pairwise r →
      List.insertionSort r l = l := by
  intro l h
  induction l with
  | nil => rfl
  | cons a t ih =>
    rcases List.pairwise_cons.mp h with ⟨ha, ht⟩
    rw [List.insertionSort_cons r ha, ih ht]

/-- Assembling the journal produced by processing every encrypted block
of `F` returns `F`. -/
theorem assemble_mkStored (P : Prim) (ivs : Nat → List Nat) (ids : Nat → String)
    (now fileId : String) (F k : List Nat) (bs : Nat) (hb : 0 < bs)
    (htpos : 0 < totalBlocksOf F.length bs) (manifest : FileManifest)
    (hsha : manifest.sha256 = computeSHA256 F)
    (hman : manifest.totalBlocks = totalBlocksOf F.length bs) :
    assembleAndValidateFile fileId
      ((List.range (totalBlocksOf F.length bs)).map
        (mkStored P ivs ids now fileId F k bs (totalBlocksOf F.length bs)))
      manifest = .ok F := by
  set total := totalBlocksOf F.length bs with htot
  set L := (List.range total).map (mkStored P ivs ids now fileId F k bs total)
    with hL
  have hfilter : getBlocksForFile L fileId = L := by
    unfold getBlocksForFile
    apply List.filter_eq_self.mpr
    intro r hr
    rw [hL, List.mem_map] at hr
    obtain ⟨i, _, rfl⟩ := hr
    exact beq_self_eq_true fileId
  have hne : L.isEmpty = false := by
    rw [hL]
    rcases total with _ | t
    · omega
    · rw [List.range_succ_eq_map, List.map_cons]
      rfl
  have hseq : ∀ i, (mkStored P ivs ids now fileId F k bs total i).header.seq = i :=
    fun i => rfl
  have hsorted : List.insertionSort (fun a b => a.header.seq ≤ b.header.seq) L = L := by
    apply insertionSort_eq_self_of_pairwise
    rw [hL, List.pairwise_map]
    apply List.Pairwise.imp ?_ (List.pairwise_lt_range total)
    intro i j hij
    rw [hseq i, hseq j]
    omega
  have hmiss : (List.range manifest.totalBlocks).filter
      (fun s => ! L.any (fun blk => blk.header.seq == s)) = [] := by
    rw [hman]
    apply List.filter_eq_nil_iff.mpr
    intro s hs
    rw [List.mem_range] at hs
    have hany : L.any (fun blk => blk.header.seq == s) = true := by
      rw [List.any_eq_true]
      refine ⟨mkStored P ivs ids now fileId F k bs total s, ?_, ?_⟩
      · rw [hL, List.mem_map]
        exact ⟨s, List.mem_range.mpr hs, rfl⟩
      · rw [hseq s]
        exact beq_self_eq_true s
    rw [hany]
    decide
  have hpay : L.filterMap (fun blk => blk.decompressed)
      = (List.range total).map (fun i => sliceChunk F bs i) := by
    rw [hL, List.filterMap_map]
    rw [show ((fun blk : StoredBlock => blk.decompressed) ∘
          mkStored P ivs ids now fileId F k bs total)
        = fun i => some (sliceChunk F bs i) from rfl]
    exact List.filterMap_eq_map (fun i => sliceChunk F bs i) ▸ rfl
  have hflat : ((List.range total).map (fun i => sliceChunk F bs i)).flatten = F :=
    chunks_flatten bs hb F.length F rfl
  unfold assembleAndValidateFile
  simp only [hfilter, hsorted]
  rw [if_neg (by rw [hne]; exact Bool.false_ne_true)]
  rw [hmiss]
  simp only [List.length_nil]
  rw [if_neg (by omega)]
  rw [hpay, hflat]
  rw [if_neg (by rw [hsha]; exact fun hc => hc rfl)]

/-- C1: for a non-empty file `F` and a shared session key, creating the
encrypted blocks, processing each of them unmodified on the receiver
(every one is accepted), and assembling the journal against a manifest
carrying `SHA-256(F)` and the block count returns exactly `F`. -/
theorem encrypted_blocks_roundtrip (P : Prim) (ivs : Nat → List Nat)
    (ids : Nat → String) (now fileId : String) (F k : List Nat) (bs : Nat)
    (manifest : FileManifest) (hb : 0 < bs) (hF : F ≠ [])
    (hiv : ∀ i, ∀ x ∈ ivs i, x < 256)
    (hsha : manifest.sha256 = computeSHA256 F)
    (hman : manifest.totalBlocks = totalBlocksOf F.length bs) :
    (processAllBlocks P k
      (createEncryptedBlocksFromFile P ivs ids now fileId F k bs) []).2 = true ∧
    assembleAndValidateFile fileId
      (processAllBlocks P k
        (createEncryptedBlocksFromFile P ivs ids now fileId F k bs) []).1
      manifest = .ok F := by
  have htpos : 0 < totalBlocksOf F.length bs := by
    unfold totalBlocksOf
    have hlen : 0 < F.length := List.length_pos.mpr hF
    exact Nat.div_pos (by omega) hb
  have hfold := processAll_mkEnc P ivs ids now fileId F k bs
    (totalBlocksOf F.length bs) hiv (totalBlocksOf F.length bs) 0 [] (by simp)
  unfold createEncryptedBlocksFromFile
  rw [List.range_eq_range' _, hfold, List.nil_append]
  refine ⟨rfl, ?_⟩
  rw [← List.range_eq_range' _]
  exact assemble_mkStored P ivs ids now fileId F k bs hb htpos manifest hsha hman

/-- Witness: the three-byte file `[1, 2, 3]` at block size 2 (two
blocks) round-trips under `tPrim` with a manifest carrying its hash. -/
theorem encrypted_blocks_roundtrip_witness :
    (0 < 2) ∧ (([1, 2, 3] : List Nat) ≠ []) ∧
    (processAllBlocks tPrim [9]
      (createEncryptedBlocksFromFile tPrim
        (fun _ => [7, 7, 7, 7, 7, 7, 7, 7, 7, 7, 7, 7]) (fun _ => "id") "t" "f"
        [1, 2, 3] [9] 2) []).2 = true ∧
    assembleAndValidateFile "f"
      (processAllBlocks tPrim [9]
        (createEncryptedBlocksFromFile tPrim
          (fun _ => [7, 7, 7, 7, 7, 7, 7, 7, 7, 7, 7, 7]) (fun _ => "id") "t" "f"
          [1, 2, 3] [9] 2) []).1
      { fileId := "f", filename := "x", totalSize := 3, totalBlocks := 2,
        sha256 := computeSHA256 [1, 2, 3] } = .ok [1, 2, 3] := by
  have h := encrypted_blocks_roundtrip tPrim
    (fun _ => [7, 7, 7, 7, 7, 7, 7, 7, 7, 7, 7, 7]) (fun _ => "id") "t" "f"
    [1, 2, 3] [9] 2
    { fileId := "f", filename := "x", totalSize := 3, totalBlocks := 2,
      sha256 := computeSHA256 [1, 2, 3] }
    (by decide) (by decide)
    (by intro i x hx; simp at hx; omega) rfl rfl
  exact ⟨by decide, by decide, h.1, h.2⟩

end OpticalSend
